import Mathlib

/-!
Verification development for a small distributed file service consisting of a
coordinator (`Coordinator/coordinator.py`) and typed content backends
(`ServerSide/main.py`).  The Python sources are shallowly embedded below:

* Filesystem paths are modelled as lists of path components (`List String`);
  a path string supplied by a client is split on `/`.  `os.path.realpath` is
  modelled as purely lexical canonicalisation (a symlink-free filesystem):
  empty and `.` components are dropped and `..` pops one component, staying
  put at the root, exactly as `realpath` behaves on an absolute path without
  symlinks.  `os.path.commonpath` is the longest common component run.
* The flat backend store is a finite map from component lists to byte lists.
* Bytes are natural numbers; control frames are a 4-byte big-endian length
  followed by the encoded payload.  The JSON codec of the Python standard
  library is kept abstract (an encoding function and a decoding function).
* SHA-256 of the standard library is kept abstract (a function from byte
  lists to strings); the handlers only compare digests.
* Socket effects are made explicit: each handler returns the list of control
  frames it writes, the updated store, and the resolved on-disk paths it
  operated on.
-/

namespace DFS

/-- Splitting a character list at every occurrence of `sep`
(Python `str.split(sep)` for a one-character separator). -/
def splitChar (sep : Char) : List Char → List (List Char)
  | [] => [[]]
  | c :: cs =>
    let r := splitChar sep cs
    if c = sep then [] :: r
    else
      match r with
      | t :: ts => (c :: t) :: ts
      | [] => [[c]]

/-- Python `s.split(sep)` for a one-character separator. -/
def pySplit (sep : Char) (s : String) : List String :=
  (splitChar sep s.data).map fun l => ⟨l⟩

/-- Python `s.lower()` (ASCII, which is all the sources use). -/
def pyLower (s : String) : String :=
  ⟨s.data.map Char.toLower⟩

/-- Python `os.path.realpath` on an absolute path, modelled lexically on the
component list: `""` and `"."` are dropped, `".."` removes the previous
component (and is a no-op at the root). -/
def normalize (comps : List String) : List String :=
  comps.foldl
    (fun acc c =>
      if c = "" ∨ c = "." then acc
      else if c = ".." then acc.dropLast
      else acc ++ [c]) []

/-- Python `os.path.commonpath` of two absolute paths, on component lists:
the longest common component run. -/
def commonComps : List String → List String → List String
  | a :: as, b :: bs => if a = b then a :: commonComps as bs else []
  | _, _ => []

/-- `_safe_path` of `ServerSide/main.py`: strip leading separators, join
under the storage root, canonicalise, and accept only results whose common
path with the root is the root itself; otherwise `ValueError("Invalid path")`. -/
def safe_path (storage : List String) (requested : String) : Except String (List String) :=
  let safe := (pySplit '/' requested).dropWhile (· = "")
  let real := normalize (storage ++ safe)
  if commonComps real storage = storage then .ok real else .error "Invalid path"

/-- The backend's flat store: resolved component list ↦ file bytes. -/
abbrev FS := List (List String × List Nat)

def FS.get : FS → List String → Option (List Nat)
  | [], _ => none
  | (k, v) :: rest, k' => if k = k' then some v else FS.get rest k'

def FS.del : FS → List String → FS
  | [], _ => []
  | (k, v) :: rest, k' => if k = k' then FS.del rest k' else (k, v) :: FS.del rest k'

def FS.set (fs : FS) (k : List String) (v : List Nat) : FS :=
  (k, v) :: FS.del fs k

/-- Python `dst_path + ".tmp"`: append `".tmp"` to the final component. -/
def tmpOf : List String → List String
  | [] => [".tmp"]
  | [x] => [x ++ ".tmp"]
  | x :: y :: xs => x :: tmpOf (y :: xs)

theorem FS.get_del_self (fs : FS) (k : List String) : (fs.del k).get k = none := by
  induction fs with
  | nil => rfl
  | cons e rest ih =>
    obtain ⟨k', v⟩ := e
    by_cases h : k' = k <;> simp [FS.del, FS.get, h, ih]

theorem FS.get_del_ne (fs : FS) (k k' : List String) (h : k ≠ k') :
    (fs.del k).get k' = fs.get k' := by
  induction fs with
  | nil => rfl
  | cons e rest ih =>
    obtain ⟨k₀, v⟩ := e
    by_cases h₀ : k₀ = k
    · subst h₀
      simp [FS.del, FS.get, h, ih]
    · by_cases h₁ : k₀ = k'
      · subst h₁
        simp [FS.del, FS.get, h₀, Ne.symm h]
      · simp [FS.del, FS.get, h₀, h₁, ih]

theorem FS.get_set_self (fs : FS) (k : List String) (v : List Nat) :
    (fs.set k v).get k = some v := by
  simp [FS.set, FS.get]

theorem FS.get_set_ne (fs : FS) (k k' : List String) (v : List Nat) (h : k ≠ k') :
    (fs.set k v).get k' = fs.get k' := by
  simp only [FS.set, FS.get, if_neg h]
  exact FS.get_del_ne fs k k' h

theorem tmpOf_ne (l : List String) : tmpOf l ≠ l := by
  induction l with
  | nil => simp [tmpOf]
  | cons x xs ih =>
    cases xs with
    | nil =>
      simp only [tmpOf, List.cons.injEq, ne_eq, not_and]
      intro hx
      have hlen := congrArg String.length hx
      rw [String.length_append] at hlen
      have h4 : (".tmp" : String).length = 4 := rfl
      omega
    | cons y ys =>
      simp only [tmpOf, ne_eq, List.cons.injEq, not_and]
      intro _
      exact ih

theorem commonComps_self_of_eq (a b : List String) (h : commonComps a b = b) :
    b.isPrefixOf a = true := by
  induction b generalizing a with
  | nil => simp [List.isPrefixOf]
  | cons x xs ih =>
    cases a with
    | nil => simp [commonComps] at h
    | cons y ys =>
      rw [commonComps] at h
      split at h
      · obtain ⟨rfl, htail⟩ := List.cons.injEq .. ▸ h
        have htail' : commonComps ys xs = xs := htail
        simp [List.isPrefixOf, ih ys htail']
      · exact absurd h (by simp)

/-- `safe_path` results are the root or lie under the root, and its only
failure message is `"Invalid path"`. -/
theorem safe_path_spec (storage : List String) (requested : String) :
    (∀ q, safe_path storage requested = .ok q → storage.isPrefixOf q = true) ∧
    (∀ e, safe_path storage requested = .error e → e = "Invalid path") := by
  constructor
  · intro q hq
    dsimp only [safe_path] at hq
    split at hq
    · cases hq
      exact commonComps_self_of_eq _ _ (by assumption)
    · cases hq
  · intro e he
    dsimp only [safe_path] at he
    split at he
    · cases he
    · cases he
      rfl

/-! ## Wire framing (`_send_control` / `_recv_control`) -/

/-- `len(b).to_bytes(4, "big")`. -/
def be4 (n : Nat) : List Nat :=
  [n / 2 ^ 24 % 256, n / 2 ^ 16 % 256, n / 2 ^ 8 % 256, n % 256]

/-- `int.from_bytes(bs, "big")`. -/
def beVal (l : List Nat) : Nat :=
  l.foldl (fun a x => a * 256 + x) 0

/-- `_recv_all(sock, n)`: the next `n` bytes of the stream and the rest, or
`None` (modelling the `b""` return) when the stream is too short. -/
def recv_all (n : Nat) (s : List Nat) : Option (List Nat × List Nat) :=
  if s.length < n then none else some (s.take n, s.drop n)

/-- `_send_control`: the bytes written for an encoded payload (the Python
code raises before writing when the length exceeds 4 bytes; theorems carry
that bound as a hypothesis). -/
def send_control (b : List Nat) : List Nat :=
  be4 b.length ++ b

/-- `_recv_control`, parameterised by the standard library JSON decoder:
read 4 length bytes, read that many payload bytes, decode.  An empty payload
(`if not payload`) or a decode failure yields `None`. -/
def recv_control {α : Type} (loads : List Nat → Option α) (s : List Nat) :
    Option (α × List Nat) :=
  match recv_all 4 s with
  | none => none
  | some (lb, rest) =>
    match recv_all (beVal lb) rest with
    | none => none
    | some (p, rest2) =>
      if p = [] then none
      else match loads p with
        | some m => some (m, rest2)
        | none => none

theorem beVal_be4 (n : Nat) (h : n < 2 ^ 32) : beVal (be4 n) = n := by
  simp only [be4, beVal, List.foldl]
  omega

theorem recv_all_exact (l rest : List Nat) :
    recv_all l.length (l ++ rest) = some (l, rest) := by
  simp [recv_all, List.take_left, List.drop_left]

/-! ## Backend extension tables and filter matching (`ServerSide/main.py`) -/

def SOUND_EXTENSIONS : List String := ["mp3", "m4p", "m4a", "flac", "ogg"]
def VIDEO_EXTENSIONS : List String := ["mp4", "mkv", "webm", "flv"]
def TEXT_EXTENSIONS : List String := ["txt", "md", "pdf"]
def IMAGE_EXTENSIONS : List String := ["jpg", "jpeg", "png"]
def COMPRESSED_EXTENSIONS : List String := ["7z", "rar", "zip"]

/-- `path.split(".")[-1]` (the whole string when there is no dot). -/
def lastDotTok (path : String) : String :=
  (pySplit '.' path).getLastD path

/-- `is_end_with(file_type, path)`: class names consult the tables, `"all"`
matches everything, anything else is compared literally (lower-cased) with
the extension.  The extension is taken from the **full path**, exactly as in
the source. -/
def is_end_with (file_type : String) (path : String) : Bool :=
  let extension := pyLower (lastDotTok path)
  if file_type = "sound" then SOUND_EXTENSIONS.contains extension
  else if file_type = "video" then VIDEO_EXTENSIONS.contains extension
  else if file_type = "text" then TEXT_EXTENSIONS.contains extension
  else if file_type = "image" then IMAGE_EXTENSIONS.contains extension
  else if file_type = "compressed" then COMPRESSED_EXTENSIONS.contains extension
  else if file_type = "all" then true
  else extension = pyLower file_type

/-! ## Directory trees: `DirectoryNode` and the backend walk `load_directory` -/

/-- One `files[]` element of a `DirectoryNode`: name, path relative to the
parent of the storage root, and the optional coordinator annotations. -/
structure FileEntry where
  name : String
  path : String
  server_type : Option String
  server : Option String
deriving DecidableEq, Repr

inductive DirNode where
  | mk (name : String) (path : String) (subdirectories : List DirNode)
      (files : List FileEntry)
deriving Repr

def DirNode.name : DirNode → String
  | .mk n _ _ _ => n

def DirNode.path : DirNode → String
  | .mk _ p _ _ => p

def DirNode.subdirectories : DirNode → List DirNode
  | .mk _ _ s _ => s

def DirNode.files : DirNode → List FileEntry
  | .mk _ _ _ f => f

mutual

def decEqDirNode : (a b : DirNode) → Decidable (a = b)
  | .mk n1 p1 s1 f1, .mk n2 p2 s2 f2 =>
    if hn : n1 = n2 then
      if hp : p1 = p2 then
        match decEqDirNodeList s1 s2 with
        | isTrue hs =>
          if hf : f1 = f2 then isTrue (by rw [hn, hp, hs, hf])
          else isFalse (by intro h; injection h; contradiction)
        | isFalse hs => isFalse (by intro h; injection h; contradiction)
      else isFalse (by intro h; injection h; contradiction)
    else isFalse (by intro h; injection h; contradiction)

def decEqDirNodeList : (a b : List DirNode) → Decidable (a = b)
  | [], [] => isTrue rfl
  | [], _ :: _ => isFalse (by intro h; cases h)
  | _ :: _, [] => isFalse (by intro h; cases h)
  | x :: xs, y :: ys =>
    match decEqDirNode x y, decEqDirNodeList xs ys with
    | isTrue h1, isTrue h2 => isTrue (by rw [h1, h2])
    | isFalse h1, _ => isFalse (by intro h; injection h; contradiction)
    | _, isFalse h2 => isFalse (by intro h; injection h; contradiction)

end

instance : DecidableEq DirNode := decEqDirNode

mutual

/-- Every file entry of a `DirectoryNode`, at any depth. -/
def DirNode.allFiles : DirNode → List FileEntry
  | .mk _ _ subs files => files ++ allFilesList subs

def allFilesList : List DirNode → List FileEntry
  | [] => []
  | d :: ds => d.allFiles ++ allFilesList ds

end

mutual

/-- `subdirectories` is empty at every depth. -/
def DirNode.noSubsAll : DirNode → Bool
  | .mk _ _ subs _ => subs.isEmpty && noSubsAllList subs

def noSubsAllList : List DirNode → Bool
  | [] => true
  | d :: ds => d.noSubsAll && noSubsAllList ds

end

/-! ### The backend side: `load_directory` over an `os.walk` of the store.

The walked directory tree is a finite rose tree; `os.walk` visits it
top-down without pruning.  `sp` is the storage root's parent directory
(`os.path.dirname(STORAGE_DIR)`) as a string, `rel` the node's path
relative to `sp` (what `os.path.relpath` yields), so the node's absolute
path is `sp ++ "/" ++ rel`.  With `"folder"` in the filters no subdirectory
is entered into `dir_map`, so the walk's visit of any subdirectory raises
`KeyError` (modelled as `none`): the function only returns a tree when the
walked root has no subdirectories at all. -/

inductive FSTree where
  | node (dirs : List (String × FSTree)) (files : List String)
deriving Repr

mutual

def load_directory (filters : List String) (sp rel name : String) :
    FSTree → Option DirNode
  | .node dirs files =>
    let fents :=
      (files.filter fun fn =>
          filters.any fun f => is_end_with f (sp ++ "/" ++ rel ++ "/" ++ fn)).map
        fun fn => FileEntry.mk fn (rel ++ "/" ++ fn) none none
    if filters.contains "folder" then
      match dirs with
      | [] => some (.mk name rel [] fents)
      | _ :: _ => none
    else
      match load_forest filters sp rel dirs with
      | some subs => some (.mk name rel subs fents)
      | none => none

def load_forest (filters : List String) (sp rel : String) :
    List (String × FSTree) → Option (List DirNode)
  | [] => some []
  | (dn, dt) :: rest =>
    match load_directory filters sp (rel ++ "/" ++ dn) dn dt,
        load_forest filters sp rel rest with
    | some d, some ds => some (d :: ds)
    | _, _ => none

end

/-! ## Backend request handlers and the `handle_client` loop -/

/-- Control frames a backend writes (the JSON objects of `_send_control`
calls; raw body bytes streamed after `ready` frames are outside the control
channel and not listed here). -/
inductive Msg where
  | error (payload : String)
  | ready
  | pong
  | uploadResult (ok : Bool) (sha256 : String)
  | dready (size : Nat) (sha256 : String)
  | deleteResult
  | list (node : DirNode)
  | previewReady (ptype : String) (size : Nat)
deriving DecidableEq, Repr

/-- The `payload` object of an `upload`/`delete` request:
`payload.get("name")`, `int(payload.get("size", 0))`, `payload.get("sha256")`. -/
structure UpPayload where
  name : Option String
  size : Int
  sha256 : Option String
deriving DecidableEq, Repr

/-- `handle_upload(sock, payload)`.  `body` is the byte sequence the client
streams after the `ready` frame (the chunked `recv` loop reads exactly
`size` bytes of it; incremental SHA-256 over the chunks equals the digest of
the whole body).  Returns the frames written, the resulting store, and the
resolved destination paths operated on. -/
def handle_upload (sha : List Nat → String) (storage : List String)
    (payload : UpPayload) (body : List Nat) (fs : FS) :
    List Msg × FS × List (List String) :=
  match payload.name with
  | none => ([.error "Invalid upload parameters"], fs, [])
  | some n =>
    if n = "" ∨ payload.size ≤ 0 then ([.error "Invalid upload parameters"], fs, [])
    else
      match safe_path storage n with
      | .error e => ([.error e], fs, [])
      | .ok dst =>
        let tmp := tmpOf dst
        let fs1 := fs.set tmp body
        let actual := sha body
        match payload.sha256 with
        | some expected =>
          if expected ≠ "" ∧ actual ≠ expected then
            ([.ready, .error "sha_mismatch"], fs1.del tmp, [dst])
          else
            ([.ready, .uploadResult true actual], (fs1.del tmp).set dst body, [dst])
        | none =>
          ([.ready, .uploadResult true actual], (fs1.del tmp).set dst body, [dst])

/-- `handle_delete(sock, payload)`. -/
def handle_delete (storage : List String) (payload : UpPayload) (fs : FS) :
    List Msg × FS × List (List String) :=
  match payload.name with
  | none => ([.error "Missing name for delete"], fs, [])
  | some n =>
    if n = "" then ([.error "Missing name for delete"], fs, [])
    else
      match safe_path storage n with
      | .error e => ([.error e], fs, [])
      | .ok path =>
        match fs.get path with
        | none => ([.error "file_not_found"], fs, [path])
        | some _ => ([.deleteResult], fs.del path, [path])

/-- The commands of the backend dispatch. -/
inductive SCmd where
  | list
  | download
  | upload
  | delete
  | ping
  | preview
  | other (s : String)
deriving DecidableEq, Repr

/-- One decoded client control message as `handle_client` sees it. -/
structure SRequest where
  command : SCmd
  path : Option String
  filters : Option (List String)
  payload : UpPayload
  body : List Nat
deriving DecidableEq, Repr

/-- Joining path components with `/` (no leading separator). -/
def joinComps : List String → String
  | [] => ""
  | [x] => x
  | x :: y :: r => x ++ "/" ++ joinComps (y :: r)

/-- The top-of-loop `path` resolution of `handle_client`: an absent or
falsy `path` defaults to the storage root, anything else goes through
`_safe_path`. -/
def resolve_top (storage : List String) : Option String → Except String (List String)
  | some p => if p = "" then .ok storage else safe_path storage p
  | none => .ok storage

/-- The `while True` loop of `handle_client` over a list of incoming
requests: resolve the top-level `path` (`break`ing the connection on
`ValueError`), dispatch, and continue.  Model parameters: `isdir` is the
directory view of the store (`os.path.isdir`, yielding the subtree that
`os.walk` traverses — the flat `FS` holds the plain files); `previewGen`
is the opaque preview-codec stage (the spec's `PreviewTransformer`:
thumbnailing, PDF rasterisation, snippet transcoding, head-of-text),
returning `(preview_type, bytes)` or unavailable; `excMsg` is `str(e)` for
the `KeyError` escaping `load_directory` when `"folder"` is filtered while
subdirectories exist — that exception reaches the outer handler of
`handle_client`, which sends one error frame and tears the connection
down.  Returns all frames written, the final store, and every resolved
path a handler operated on. -/
def handle_client (sha : List Nat → String)
    (previewGen : List String → Option (String × List Nat))
    (excMsg : List String → String) (isdir : List String → Option FSTree)
    (storage : List String) :
    FS → List SRequest → List Msg × FS × List (List String)
  | fs, [] => ([], fs, [])
  | fs, r :: rest =>
    match resolve_top storage r.path with
    | .error e => ([.error e], fs, [])
    | .ok path =>
      let step : List Msg × FS × List (List String) × Bool :=
        match r.command with
        | .list =>
          match isdir path with
          | none => ([.error "file_not_found"], fs, [path], true)
          | some t =>
            match load_directory (r.filters.getD ["all"])
                ("/" ++ joinComps storage.dropLast)
                (joinComps (path.drop (storage.length - 1)))
                (path.getLastD "") t with
            | some node => ([.list node], fs, [path], true)
            | none => ([.error (excMsg path)], fs, [path], false)
        | .download =>
          match fs.get path with
          | none => ([.error "file_not_found"], fs, [path], true)
          | some content => ([.dready content.length (sha content)], fs, [path], true)
        | .upload =>
          let u := handle_upload sha storage r.payload r.body fs
          (u.1, u.2.1, u.2.2, true)
        | .delete =>
          let d := handle_delete storage r.payload fs
          (d.1, d.2.1, d.2.2, true)
        | .ping => ([.pong], fs, [], true)
        | .preview =>
          match fs.get path with
          | none => ([.error "file_not_found"], fs, [path], true)
          | some _ =>
            match previewGen path with
            | some pr => ([.previewReady pr.1 pr.2.length], fs, [path], true)
            | none => ([.error "preview_unavailable"], fs, [path], true)
        | .other _ => ([.error "unknown_control_type"], fs, [], true)
      match step with
      | (msgs, fs2, acc, true) =>
        let next := handle_client sha previewGen excMsg isdir storage fs2 rest
        (msgs ++ next.1, next.2.1, acc ++ next.2.2)
      | (msgs, fs2, acc, false) => (msgs, fs2, acc)

/-! ## Coordinator (`Coordinator/coordinator.py`): routing and single-target
forwarding -/

def video_exts : List String := [".mp4", ".mkv", ".webm", ".flv", ".avi"]
def image_exts : List String := [".jpg", ".jpeg", ".png", ".bmp", ".gif"]
def docs_exts : List String := [".txt", ".md", ".doc", ".pdf"]
def sound_exts : List String := [".mp3", ".m4p", ".m4a", ".flac", ".ogg"]
def compressed_exts : List String := [".7z", ".rar", ".zip"]

/-- `Coordinator._get_target_server_by_path`, returning the content class
the target address is registered under (`SERVER_NODE` maps classes to
addresses loaded from configuration). -/
def get_target_server_by_path (path : String) : Option String :=
  if path = "" ∨ ¬ path.data.contains '.' then none
  else
    let base := (pySplit '/' path).getLastD path
    let ext := "." ++ (pySplit '.' base).getLastD base
    if image_exts.contains ext then some "image"
    else if video_exts.contains ext then some "video"
    else if docs_exts.contains ext then some "text"
    else if sound_exts.contains ext then some "sound"
    else if compressed_exts.contains ext then some "compressed"
    else none

/-- Outcome of the coordinator's dial + exchange with a backend.
`connected frames` carries the control frames the backend answers with
(`connected []` models a backend that accepts and closes without replying). -/
inductive DialOutcome where
  | refused
  | timeout
  | failed
  | connected (frames : List Msg)
deriving DecidableEq, Repr

/-- `Coordinator.forward_json_request`: dial with a 5 s timeout, send, read
one reply frame, mapping connectivity faults to error frames. -/
def forward_json_request (d : DialOutcome) : Msg :=
  match d with
  | .refused => .error "server_offline"
  | .timeout => .error "server_timeout"
  | .failed => .error "server_error"
  | .connected [] => .error "No response"
  | .connected (r :: _) => r

/-- `Coordinator.handle_download`: frames written to the client.  When the
extension is unrouteable, an error is sent; when the dial raises
(connection refused, timeout, or anything else), the exception is caught by
the bare `except` which only prints — nothing is sent to the client.  On
success the backend's reply frames are forwarded byte-for-byte (body
streaming elided). -/
def coord_handle_download (path : String) (d : DialOutcome) : List Msg :=
  match get_target_server_by_path path with
  | none => [.error "file_not_found"]
  | some _ =>
    match d with
    | .refused => []
    | .timeout => []
    | .failed => []
    | .connected [] => [.error "server_no_response"]
    | .connected frames => frames

/-- `Coordinator.handle_preview`: identical proxying, but the unrouteable
error payload is the space-separated string `"file not found"`. -/
def coord_handle_preview (path : String) (d : DialOutcome) : List Msg :=
  match get_target_server_by_path path with
  | none => [.error "file not found"]
  | some _ =>
    match d with
    | .refused => []
    | .timeout => []
    | .failed => []
    | .connected [] => [.error "server_no_response"]
    | .connected frames => frames

/-- `Coordinator.handle_upload`: routing is on `payload["name"]`. -/
def coord_handle_upload (name : String) (d : DialOutcome) : List Msg :=
  match get_target_server_by_path name with
  | none => [.error "File type not supported"]
  | some _ =>
    match d with
    | .refused => []
    | .timeout => []
    | .failed => []
    | .connected [] => [.error "server_no_response"]
    | .connected frames => frames

/-- Coordinator commands covered by the session model (`list` and `search`
fan out and are modelled separately). -/
inductive CCmd where
  | download
  | preview
  | upload
  | other (s : String)
deriving DecidableEq, Repr

structure CReq where
  command : CCmd
  path : String
  name : String
deriving DecidableEq, Repr

def coord_step (dial : CReq → DialOutcome) (r : CReq) : List Msg :=
  match r.command with
  | .download => coord_handle_download r.path (dial r)
  | .preview => coord_handle_preview r.path (dial r)
  | .upload => coord_handle_upload r.name (dial r)
  | .other s => [.error ("unknown_command: " ++ s)]

/-- The `while True` loop of `Coordinator.handle_client`: every handler
returns normally, so the connection keeps serving subsequent requests. -/
def coord_session (dial : CReq → DialOutcome) : List CReq → List Msg
  | [] => []
  | r :: rest => coord_step dial r ++ coord_session dial rest

/-! ## Coordinator list merging: `merge_directory_nodes`,
`merge_response_list` and `handle_list` -/

/-- The file-merge loop of `merge_directory_nodes`: source files are
appended unless their `path` is in the `existing_file_paths` set, which is
seeded with the target's file paths and grows with every appended file. -/
def mergeFiles (acc : List FileEntry) (seen : List String) :
    List FileEntry → List FileEntry
  | [] => acc
  | f :: rest =>
    if seen.contains f.path then mergeFiles acc seen rest
    else mergeFiles (acc ++ [f]) (seen ++ [f.path]) rest

mutual

/-- `Coordinator.merge_directory_nodes(target, source)`, functionally:
the in-place mutation of `target` becomes the returned node. -/
def merge_directory_nodes : DirNode → DirNode → DirNode
  | .mk tn tp tsubs tfiles, .mk _ _ ssubs sfiles =>
    .mk tn tp (mergeSubs tsubs ssubs)
      (mergeFiles tfiles (tfiles.map FileEntry.path) sfiles)
termination_by _t s => (sizeOf s, 0)

/-- The subdirectory loop: each source subdirectory either merges into the
entry `target_subs_map` holds for its path (the **last** list occurrence,
since the dict keeps the latest binding) or is appended. -/
def mergeSubs (acc : List DirNode) : List DirNode → List DirNode
  | [] => acc
  | ss :: rest =>
    if acc.any (fun d => d.path = ss.path) then
      mergeSubs (updMergeLast ss acc) rest
    else
      mergeSubs (acc ++ [ss]) rest
termination_by l => (sizeOf l, 1)

/-- Merge `ss` into the last element of the list whose `path` equals
`ss.path`. -/
def updMergeLast (ss : DirNode) : List DirNode → List DirNode
  | [] => []
  | t :: ts =>
    if ts.any (fun d => d.path = ss.path) then t :: updMergeLast ss ts
    else if t.path = ss.path then merge_directory_nodes t ss :: ts
    else t :: updMergeLast ss ts
termination_by l => (sizeOf ss, sizeOf l)

end

/-- `Coordinator.merge_response_list(data_list)`: fold the root nodes into
an insertion-ordered, path-keyed collection. -/
def merge_response_list (l : List DirNode) : List DirNode :=
  l.foldl
    (fun acc item =>
      if acc.any (fun d => d.path = item.path) then updMergeLast item acc
      else acc ++ [item]) []

/-- The coordinator's per-file annotation in `handle_list`:
`file_info["server_type"] = ...; file_info["server"] = ...`. -/
def annotate (st sv : String) (e : FileEntry) : FileEntry :=
  FileEntry.mk e.name e.path (some st) (some sv)

/-- `Coordinator.handle_list`: one `(server_type, server_addr, reply)`
triple per queried backend (`none` models a reply that is missing or not of
type `list`).  Files are appended to the root with annotations — without
any deduplication — while collected subdirectories go through
`merge_response_list`. -/
def coord_handle_list (path : String)
    (resps : List (String × String × Option DirNode)) : DirNode :=
  let files := resps.foldl
    (fun acc r =>
      match r.2.2 with
      | some n => acc ++ n.files.map (annotate r.1 r.2.1)
      | none => acc) []
  let subs := resps.foldl
    (fun acc r =>
      match r.2.2 with
      | some n => acc ++ n.subdirectories
      | none => acc) []
  .mk "storage" path (merge_response_list subs) files

/-! ## Claim C1: path safety -/

theorem isPrefixOf_self (l : List String) : l.isPrefixOf l = true :=
  List.isPrefixOf_iff_prefix.mpr (List.prefix_refl l)

theorem resolve_top_ok (storage : List String) (op : Option String)
    (path : List String) (h : resolve_top storage op = .ok path) :
    storage.isPrefixOf path = true := by
  cases op with
  | none =>
    cases h
    exact isPrefixOf_self storage
  | some p =>
    dsimp only [resolve_top] at h
    split at h
    · cases h
      exact isPrefixOf_self storage
    · exact (safe_path_spec storage p).1 path h

theorem handle_upload_confined (sha : List Nat → String) (storage : List String)
    (payload : UpPayload) (body : List Nat) (fs : FS) (q : List String)
    (hq : q ∈ (handle_upload sha storage payload body fs).2.2) :
    storage.isPrefixOf q = true := by
  unfold handle_upload at hq
  split at hq
  · simp at hq
  · rename_i n hn
    split at hq
    · simp at hq
    · split at hq
      · simp at hq
      · rename_i dst hdst
        have hpre : storage.isPrefixOf dst = true := (safe_path_spec storage n).1 dst hdst
        dsimp only at hq
        split at hq
        · rename_i expected hexp
          split at hq <;>
            · simp only [List.mem_singleton] at hq
              exact hq ▸ hpre
        · simp only [List.mem_singleton] at hq
          exact hq ▸ hpre

theorem handle_delete_confined (storage : List String) (payload : UpPayload)
    (fs : FS) (q : List String)
    (hq : q ∈ (handle_delete storage payload fs).2.2) :
    storage.isPrefixOf q = true := by
  unfold handle_delete at hq
  split at hq
  · simp at hq
  · rename_i n hn
    split at hq
    · simp at hq
    · split at hq
      · simp at hq
      · rename_i path hpath
        have hpre : storage.isPrefixOf path = true := (safe_path_spec storage n).1 path hpath
        split at hq <;>
          · simp only [List.mem_singleton] at hq
            exact hq ▸ hpre

theorem handle_client_confined (sha : List Nat → String)
    (previewGen : List String → Option (String × List Nat))
    (excMsg : List String → String) (isdir : List String → Option FSTree)
    (storage : List String) (fs : FS) (reqs : List SRequest) (q : List String)
    (hq : q ∈ (handle_client sha previewGen excMsg isdir storage fs reqs).2.2) :
    storage.isPrefixOf q = true := by
  induction reqs generalizing fs with
  | nil => simp [handle_client] at hq
  | cons r rest ih =>
    unfold handle_client at hq
    split at hq
    · simp at hq
    · rename_i path hres
      have hpre : storage.isPrefixOf path = true := resolve_top_ok storage r.path path hres
      dsimp only at hq
      cases hc : r.command <;> rw [hc] at hq
      · cases hd : isdir path with
        | none =>
          rw [hd] at hq
          dsimp only at hq
          simp only [List.mem_append, List.mem_singleton] at hq
          rcases hq with rfl | hq
          · exact hpre
          · exact ih _ hq
        | some t =>
          rw [hd] at hq
          dsimp only at hq
          cases hld : load_directory (r.filters.getD ["all"])
              ("/" ++ joinComps storage.dropLast)
              (joinComps (path.drop (storage.length - 1)))
              (path.getLastD "") t with
          | some node =>
            rw [hld] at hq
            dsimp only at hq
            simp only [List.mem_append, List.mem_singleton] at hq
            rcases hq with rfl | hq
            · exact hpre
            · exact ih _ hq
          | none =>
            rw [hld] at hq
            dsimp only at hq
            simp only [List.mem_singleton] at hq
            exact hq ▸ hpre
      · cases hget : fs.get path <;>
          · rw [hget] at hq
            dsimp only at hq
            simp only [List.mem_append, List.mem_singleton] at hq
            rcases hq with rfl | hq
            · exact hpre
            · exact ih _ hq
      · dsimp only at hq
        simp only [List.mem_append] at hq
        rcases hq with hq | hq
        · exact handle_upload_confined sha storage r.payload r.body fs q hq
        · exact ih _ hq
      · dsimp only at hq
        simp only [List.mem_append] at hq
        rcases hq with hq | hq
        · exact handle_delete_confined storage r.payload fs q hq
        · exact ih _ hq
      · dsimp only at hq
        simp only [List.nil_append] at hq
        exact ih _ hq
      · cases hget : fs.get path with
        | none =>
          rw [hget] at hq
          dsimp only at hq
          simp only [List.mem_append, List.mem_singleton] at hq
          rcases hq with rfl | hq
          · exact hpre
          · exact ih _ hq
        | some c =>
          rw [hget] at hq
          dsimp only at hq
          cases hpg : previewGen path <;>
            · rw [hpg] at hq
              dsimp only at hq
              simp only [List.mem_append, List.mem_singleton] at hq
              rcases hq with rfl | hq
              · exact hpre
              · exact ih _ hq
      · dsimp only at hq
        simp only [List.nil_append] at hq
        exact ih _ hq

/-- C1.  `_safe_path` either returns the storage root or a path under it,
or fails with exactly `ValueError("Invalid path")`; and every resolved path
any backend command — list, upload, download, preview, delete — operates on
during a whole `handle_client` session lies at or under the storage root. -/
theorem safe_path_confines_all_commands (storage : List String) (requested : String)
    (sha : List Nat → String) (previewGen : List String → Option (String × List Nat))
    (excMsg : List String → String) (isdir : List String → Option FSTree)
    (fs : FS) (reqs : List SRequest) (q : List String)
    (hq : q ∈ (handle_client sha previewGen excMsg isdir storage fs reqs).2.2) :
    (match safe_path storage requested with
      | .ok r => storage.isPrefixOf r = true
      | .error e => e = "Invalid path") ∧
    storage.isPrefixOf q = true := by
  refine ⟨?_, handle_client_confined sha previewGen excMsg isdir storage fs reqs q hq⟩
  cases h : safe_path storage requested with
  | ok r => exact (safe_path_spec storage requested).1 r h
  | error e => exact (safe_path_spec storage requested).2 e h

/-- Witness for C1 at concrete sessions: a `download` of `docs/a.txt`
resolves under the root and its operand is confined, and the default path
a `list` walks is the root itself. -/
theorem safe_path_confines_all_commands_witness :
    ["home", "storage"].isPrefixOf ["home", "storage", "docs", "a.txt"] = true ∧
    ["home", "storage"].isPrefixOf ["home", "storage"] = true :=
  ⟨(safe_path_confines_all_commands ["home", "storage"] "docs/a.txt"
      (fun _ => "") (fun _ => none) (fun _ => "")
      (fun _ => some (FSTree.node [] [])) []
      [SRequest.mk SCmd.list none none (UpPayload.mk none 0 none) [],
       SRequest.mk SCmd.download (some "docs/a.txt") none (UpPayload.mk none 0 none) []]
      ["home", "storage", "docs", "a.txt"] (by decide)).1,
   (safe_path_confines_all_commands ["home", "storage"] "docs/a.txt"
      (fun _ => "") (fun _ => none) (fun _ => "")
      (fun _ => some (FSTree.node [] [])) []
      [SRequest.mk SCmd.list none none (UpPayload.mk none 0 none) []]
      ["home", "storage"] (by decide)).2⟩

/-! ## Claims C2 / C10: upload integrity handling -/

/-- C2.  When the declared `sha256` is present, non-empty and differs from
the digest of the received body, `handle_upload` replies with
`ready` followed by `error/sha_mismatch`, deletes the temporary file, and
leaves the destination exactly as it was before the upload. -/
theorem upload_sha_mismatch (sha : List Nat → String) (storage : List String)
    (payload : UpPayload) (body : List Nat) (fs : FS) (n expected : String)
    (dst : List String)
    (hn : payload.name = some n) (hok : ¬(n = "" ∨ payload.size ≤ 0))
    (hdst : safe_path storage n = .ok dst)
    (hexp : payload.sha256 = some expected) (hexp1 : expected ≠ "")
    (hexp2 : sha body ≠ expected) :
    (handle_upload sha storage payload body fs).1
        = [Msg.ready, Msg.error "sha_mismatch"] ∧
    (handle_upload sha storage payload body fs).2.1.get dst = fs.get dst ∧
    (handle_upload sha storage payload body fs).2.1.get (tmpOf dst) = none := by
  have hres : handle_upload sha storage payload body fs
      = ([Msg.ready, Msg.error "sha_mismatch"],
         (fs.set (tmpOf dst) body).del (tmpOf dst), [dst]) := by
    unfold handle_upload
    rw [hn]
    dsimp only
    rw [if_neg hok, hdst]
    dsimp only
    rw [hexp]
    dsimp only
    rw [if_pos ⟨hexp1, hexp2⟩]
  rw [hres]
  refine ⟨rfl, ?_, ?_⟩
  · have h1 := FS.get_del_ne (fs.set (tmpOf dst) body) (tmpOf dst) dst (tmpOf_ne dst)
    rw [h1]
    exact FS.get_set_ne fs (tmpOf dst) dst body (tmpOf_ne dst)
  · exact FS.get_del_self (fs.set (tmpOf dst) body) (tmpOf dst)

/-- Witness for C2: uploading 3 bytes declared with digest `"bb"` while the
digest function yields `"aa"` fails with `sha_mismatch` and leaves the
store without the destination or its temp file. -/
theorem upload_sha_mismatch_witness :
    (handle_upload (fun _ => "aa") ["home", "storage"]
        (UpPayload.mk (some "f.txt") 3 (some "bb")) [1, 2, 3] []).1
      = [Msg.ready, Msg.error "sha_mismatch"] ∧
    (handle_upload (fun _ => "aa") ["home", "storage"]
        (UpPayload.mk (some "f.txt") 3 (some "bb")) [1, 2, 3] []).2.1.get
        ["home", "storage", "f.txt"] = none ∧
    (handle_upload (fun _ => "aa") ["home", "storage"]
        (UpPayload.mk (some "f.txt") 3 (some "bb")) [1, 2, 3] []).2.1.get
        (tmpOf ["home", "storage", "f.txt"]) = none :=
  upload_sha_mismatch (fun _ => "aa") ["home", "storage"]
    (UpPayload.mk (some "f.txt") 3 (some "bb")) [1, 2, 3] [] "f.txt" "bb"
    ["home", "storage", "f.txt"] rfl (by decide) rfl rfl
    (by decide) (by decide)

/-- C10.  With no declared `sha256` (absent or empty) the backend skips the
integrity check: the body is renamed into place unconditionally and the
reply is `upload_result {ok: true, sha256: computed digest}`; and an upload
with a falsy name or non-positive size is rejected up front with
`Invalid upload parameters`, before the `ready` frame and body phase, with
the store untouched. -/
theorem upload_skip_verification_and_param_check (sha : List Nat → String)
    (storage : List String) (payload : UpPayload) (body : List Nat) (fs : FS)
    (n : String) (dst : List String) :
    ((payload.name = none ∨ payload.name = some "" ∨ payload.size ≤ 0) →
      handle_upload sha storage payload body fs
        = ([Msg.error "Invalid upload parameters"], fs, [])) ∧
    (payload.name = some n → ¬(n = "" ∨ payload.size ≤ 0) →
      safe_path storage n = .ok dst →
      (payload.sha256 = none ∨ payload.sha256 = some "") →
      (handle_upload sha storage payload body fs).1
          = [Msg.ready, Msg.uploadResult true (sha body)] ∧
      (handle_upload sha storage payload body fs).2.1.get dst = some body) := by
  constructor
  · intro h
    unfold handle_upload
    rcases h with h | h | h
    · rw [h]
    · rw [h]
      dsimp only
      rw [if_pos (Or.inl rfl)]
    · cases hn : payload.name with
      | none => rfl
      | some m =>
        dsimp only
        rw [if_pos (Or.inr h)]
  · intro hn hok hdst hsha
    have hres : handle_upload sha storage payload body fs
        = ([Msg.ready, Msg.uploadResult true (sha body)],
           ((fs.set (tmpOf dst) body).del (tmpOf dst)).set dst body, [dst]) := by
      unfold handle_upload
      rw [hn]
      dsimp only
      rw [if_neg hok, hdst]
      dsimp only
      rcases hsha with h | h
      · rw [h]
      · rw [h]
        dsimp only
        rw [if_neg (by simp)]
    rw [hres]
    exact ⟨rfl, FS.get_set_self _ dst body⟩

/-- Witness for C10: a zero-size upload is rejected up front, and an upload
of `[1, 2, 3]` with no declared digest lands at the destination with an
`ok`/digest reply. -/
theorem upload_skip_verification_and_param_check_witness :
    handle_upload (fun _ => "aa") ["home", "storage"]
        (UpPayload.mk (some "x.txt") 0 none) [] []
      = ([Msg.error "Invalid upload parameters"], [], []) ∧
    (handle_upload (fun _ => "aa") ["home", "storage"]
        (UpPayload.mk (some "f.txt") 3 none) [1, 2, 3] []).1
      = [Msg.ready, Msg.uploadResult true "aa"] ∧
    (handle_upload (fun _ => "aa") ["home", "storage"]
        (UpPayload.mk (some "f.txt") 3 none) [1, 2, 3] []).2.1.get
        ["home", "storage", "f.txt"] = some [1, 2, 3] :=
  ⟨(upload_skip_verification_and_param_check (fun _ => "aa") ["home", "storage"]
      (UpPayload.mk (some "x.txt") 0 none) [] [] "x.txt" []).1
      (Or.inr (Or.inr (by decide))),
   (upload_skip_verification_and_param_check (fun _ => "aa") ["home", "storage"]
      (UpPayload.mk (some "f.txt") 3 none) [1, 2, 3] [] "f.txt"
      ["home", "storage", "f.txt"]).2 rfl (by decide) rfl (Or.inl rfl)⟩

/-! ## Claim C6: error frames and connection lifetime -/

/-- C6 counterexample.  A path-traversal `download` makes `handle_client`
send one `Invalid path` error frame and then `break` out of its loop: the
following `ping` on the same connection is never served, contradicting the
claim that the connection continues to serve subsequent commands. -/
theorem invalid_path_closes_connection :
    (handle_client (fun _ => "") (fun _ => none) (fun _ => "") (fun _ => none)
        ["srv", "storage"] []
        [SRequest.mk SCmd.download (some "../etc/passwd") none (UpPayload.mk none 0 none) [],
         SRequest.mk SCmd.ping none none (UpPayload.mk none 0 none) []]).1
      = [Msg.error "Invalid path"] ∧
    Msg.pong ∉ (handle_client (fun _ => "") (fun _ => none) (fun _ => "") (fun _ => none)
        ["srv", "storage"] []
        [SRequest.mk SCmd.download (some "../etc/passwd") none (UpPayload.mk none 0 none) [],
         SRequest.mk SCmd.ping none none (UpPayload.mk none 0 none) []]).1 := by
  decide

/-- C6 amended.  A top-level `Invalid path` resolution failure produces
exactly one error frame and closes the connection (remaining requests are
dropped), while handler-level errors — `file_not_found` from a download and
`unknown_control_type` from an unrecognised command — produce exactly one
error frame and the loop continues with the remaining requests. -/
theorem backend_error_frame_discipline (sha : List Nat → String)
    (previewGen : List String → Option (String × List Nat))
    (excMsg : List String → String) (isdir : List String → Option FSTree)
    (storage : List String) (fs : FS) (r : SRequest) (rest : List SRequest)
    (p s : String) :
    (r.path = some p → p ≠ "" → safe_path storage p = .error "Invalid path" →
      handle_client sha previewGen excMsg isdir storage fs (r :: rest)
        = ([Msg.error "Invalid path"], fs, [])) ∧
    (r.command = SCmd.download → r.path = none → fs.get storage = none →
      handle_client sha previewGen excMsg isdir storage fs (r :: rest)
        = (Msg.error "file_not_found"
             :: (handle_client sha previewGen excMsg isdir storage fs rest).1,
           (handle_client sha previewGen excMsg isdir storage fs rest).2.1,
           storage :: (handle_client sha previewGen excMsg isdir storage fs rest).2.2)) ∧
    (r.command = SCmd.other s → r.path = none →
      handle_client sha previewGen excMsg isdir storage fs (r :: rest)
        = (Msg.error "unknown_control_type"
             :: (handle_client sha previewGen excMsg isdir storage fs rest).1,
           (handle_client sha previewGen excMsg isdir storage fs rest).2.1,
           (handle_client sha previewGen excMsg isdir storage fs rest).2.2)) := by
  obtain ⟨cmd, rpath, rfil, rpl, rbody⟩ := r
  refine ⟨?_, ?_, ?_⟩
  · intro hp hp0 herr
    dsimp only at hp
    subst hp
    conv_lhs => rw [handle_client]
    dsimp only [resolve_top]
    rw [if_neg hp0, herr]
  · intro hc hp
    dsimp only at hc hp
    subst hc hp
    intro hget
    conv_lhs => rw [handle_client]
    dsimp only [resolve_top]
    rw [hget]
    rfl
  · intro hc hp
    dsimp only at hc hp
    subst hc hp
    conv_lhs => rw [handle_client]
    rfl

/-- Witness for C6 amended, at concrete sessions: the traversal request
closes after one error frame; a download of a missing file and an unknown
command each answer one error frame and leave the connection serving. -/
theorem backend_error_frame_discipline_witness :
    handle_client (fun _ => "") (fun _ => none) (fun _ => "") (fun _ => none)
        ["srv", "storage"] []
        [SRequest.mk SCmd.download (some "../etc/passwd") none (UpPayload.mk none 0 none) []]
      = ([Msg.error "Invalid path"], [], []) ∧
    handle_client (fun _ => "") (fun _ => none) (fun _ => "") (fun _ => none)
        ["srv", "storage"] []
        [SRequest.mk SCmd.download none none (UpPayload.mk none 0 none) []]
      = ([Msg.error "file_not_found"], [], [["srv", "storage"]]) ∧
    handle_client (fun _ => "") (fun _ => none) (fun _ => "") (fun _ => none)
        ["srv", "storage"] []
        [SRequest.mk (SCmd.other "bogus") none none (UpPayload.mk none 0 none) []]
      = ([Msg.error "unknown_control_type"], [], []) :=
  ⟨(backend_error_frame_discipline (fun _ => "") (fun _ => none) (fun _ => "")
      (fun _ => none) ["srv", "storage"] []
      (SRequest.mk SCmd.download (some "../etc/passwd") none (UpPayload.mk none 0 none) [])
      [] "../etc/passwd" "bogus").1 rfl (by decide) rfl,
   (backend_error_frame_discipline (fun _ => "") (fun _ => none) (fun _ => "")
      (fun _ => none) ["srv", "storage"] []
      (SRequest.mk SCmd.download none none (UpPayload.mk none 0 none) [])
      [] "" "bogus").2.1 rfl rfl rfl,
   (backend_error_frame_discipline (fun _ => "") (fun _ => none) (fun _ => "")
      (fun _ => none) ["srv", "storage"] []
      (SRequest.mk (SCmd.other "bogus") none none (UpPayload.mk none 0 none) [])
      [] "" "bogus").2.2 rfl rfl⟩

/-! ## Claim C8: control-frame round-trip -/

/-- C8.  For any JSON codec pair (`json.dumps`/`json.loads` of the standard
library, whose round-trip on serialisable objects is the last hypothesis)
and any object `m` whose encoding is non-empty and fits the 4-byte length
prefix, `_recv_control` over the bytes `_send_control` wrote returns an
object structurally equal to `m`, consumes exactly the frame, and the
4-byte prefix written is the big-endian byte length of the encoding. -/
theorem frame_roundtrip {α : Type} (dumps : α → List Nat)
    (loads : List Nat → Option α) (m : α) (rest : List Nat)
    (hlen : (dumps m).length < 2 ^ 32) (hne : dumps m ≠ [])
    (hround : loads (dumps m) = some m) :
    recv_control loads (send_control (dumps m) ++ rest) = some (m, rest) ∧
    (send_control (dumps m)).take 4 = be4 (dumps m).length := by
  have h4 : (be4 (dumps m).length).length = 4 := rfl
  constructor
  · unfold recv_control send_control
    rw [List.append_assoc, ← h4, recv_all_exact]
    dsimp only
    rw [beVal_be4 _ hlen, recv_all_exact]
    dsimp only
    rw [if_neg hne, hround]
  · unfold send_control
    rw [← h4, List.take_left]

/-- Witness for C8 with a one-byte codec: the frame for encoding `[7]`
round-trips and its length prefix is `be4 1`. -/
theorem frame_roundtrip_witness :
    recv_control (fun _ => some 0) (send_control ((fun (_ : Nat) => [7]) 0) ++ [9])
        = some (0, [9]) ∧
    (send_control ((fun (_ : Nat) => [7]) 0)).take 4 = be4 1 :=
  frame_roundtrip (fun _ => [7]) (fun _ => some 0) 0 [9]
    (by decide) (by decide) rfl

/-! ## Claim C5: extension tables -/

/-- C5 counterexample.  Against the claimed canonical tables: the backend's
video class does not contain `avi` and its text class does not contain
`docx`; the coordinator cannot route `docx` and its matching is
case-sensitive (upper-case `A.MP4` is unrouteable). -/
theorem ext_tables_counterexample :
    is_end_with "video" "a.avi" = false ∧
    is_end_with "text" "report.docx" = false ∧
    get_target_server_by_path "report.docx" = none ∧
    get_target_server_by_path "A.MP4" = none := by
  decide

/-- C5 amended.  The actual tables: backend video = {mp4, mkv, webm, flv}
and text = {txt, md, pdf}, matched case-insensitively on the last
`.`-delimited token of the full path; coordinator video =
{.mp4, .mkv, .webm, .flv, .avi} and text = {.txt, .md, .doc, .pdf},
matched case-sensitively on the last `.`-token of the basename. -/
theorem ext_tables_actual :
    (∀ e : String, e ∈ VIDEO_EXTENSIONS ↔
      e = "mp4" ∨ e = "mkv" ∨ e = "webm" ∨ e = "flv") ∧
    (∀ e : String, e ∈ TEXT_EXTENSIONS ↔ e = "txt" ∨ e = "md" ∨ e = "pdf") ∧
    (∀ e : String, e ∈ video_exts ↔
      e = ".mp4" ∨ e = ".mkv" ∨ e = ".webm" ∨ e = ".flv" ∨ e = ".avi") ∧
    (∀ e : String, e ∈ docs_exts ↔
      e = ".txt" ∨ e = ".md" ∨ e = ".doc" ∨ e = ".pdf") ∧
    (∀ p : String, is_end_with "video" p
      = VIDEO_EXTENSIONS.contains (pyLower (lastDotTok p))) ∧
    (∀ p : String, is_end_with "text" p
      = TEXT_EXTENSIONS.contains (pyLower (lastDotTok p))) ∧
    is_end_with "video" "A.MP4" = true := by
  refine ⟨fun e => ?_, fun e => ?_, fun e => ?_, fun e => ?_,
    fun p => rfl, fun p => rfl, by decide⟩
  · simp [VIDEO_EXTENSIONS]
  · simp [TEXT_EXTENSIONS]
  · simp [video_exts]
  · simp [docs_exts]

/-! ## Claim C7: coordinator replies for unknown extensions -/

/-- C7 counterexample.  For a `preview` whose extension is unrouteable the
coordinator's error payload is the space-separated string
`"file not found"`, not `"file_not_found"` as claimed. -/
theorem coord_preview_payload_counterexample :
    coord_session (fun _ => DialOutcome.refused) [CReq.mk CCmd.preview "x.xyz" ""]
      = [Msg.error "file not found"] ∧
    Msg.error "file_not_found" ∉
      coord_session (fun _ => DialOutcome.refused) [CReq.mk CCmd.preview "x.xyz" ""] := by
  decide

/-- C7 amended.  For a single-target command on an extension outside the
coordinator's tables the client receives `File type not supported` for
upload, `file_not_found` for download, and `file not found` (with spaces)
for preview, and the session continues serving the remaining requests. -/
theorem coord_unknown_extension (dial : CReq → DialOutcome) (rest : List CReq)
    (p nm : String)
    (hp : get_target_server_by_path p = none)
    (hn : get_target_server_by_path nm = none) :
    coord_session dial (CReq.mk CCmd.download p nm :: rest)
      = Msg.error "file_not_found" :: coord_session dial rest ∧
    coord_session dial (CReq.mk CCmd.preview p nm :: rest)
      = Msg.error "file not found" :: coord_session dial rest ∧
    coord_session dial (CReq.mk CCmd.upload p nm :: rest)
      = Msg.error "File type not supported" :: coord_session dial rest := by
  refine ⟨?_, ?_, ?_⟩
  · show coord_handle_download p _ ++ coord_session dial rest = _
    unfold coord_handle_download
    rw [hp]
    rfl
  · show coord_handle_preview p _ ++ coord_session dial rest = _
    unfold coord_handle_preview
    rw [hp]
    rfl
  · show coord_handle_upload nm _ ++ coord_session dial rest = _
    unfold coord_handle_upload
    rw [hn]
    rfl

/-- Witness for C7 amended at `x.xyz` with an empty remaining session. -/
theorem coord_unknown_extension_witness :
    coord_session (fun _ => DialOutcome.refused) [CReq.mk CCmd.download "x.xyz" "x.xyz"]
      = [Msg.error "file_not_found"] ∧
    coord_session (fun _ => DialOutcome.refused) [CReq.mk CCmd.preview "x.xyz" "x.xyz"]
      = [Msg.error "file not found"] ∧
    coord_session (fun _ => DialOutcome.refused) [CReq.mk CCmd.upload "x.xyz" "x.xyz"]
      = [Msg.error "File type not supported"] :=
  coord_unknown_extension (fun _ => DialOutcome.refused) [] "x.xyz" "x.xyz" rfl rfl

/-! ## Claim C3: downloads routed to an unreachable backend -/

/-- C3.  The mapping `refused ↦ server_offline` / `timeout ↦ server_timeout`
exists in `forward_json_request` (used by `list`/`search`), but
`handle_download` dials the backend itself and its bare `except` only
prints: a download routed to a stopped video backend sends **no** frame to
the client, instead of the claimed `server_offline`/`server_timeout` error
frame. -/
theorem download_offline_sends_nothing :
    get_target_server_by_path "storage/b.mp4" = some "video" ∧
    coord_handle_download "storage/b.mp4" DialOutcome.refused = [] ∧
    coord_handle_download "storage/b.mp4" DialOutcome.timeout = [] ∧
    forward_json_request DialOutcome.refused = Msg.error "server_offline" ∧
    forward_json_request DialOutcome.timeout = Msg.error "server_timeout" := by
  decide

/-! ## Claim C4: list filtering -/

mutual

/-- Every file entry at any depth matches some filter token, with the
extension drawn from the entry's full on-disk path `sp ++ "/" ++ path`. -/
def DirNode.allFilesMatch (filters : List String) (sp : String) : DirNode → Bool
  | .mk _ _ subs files =>
    (files.all fun e => filters.any fun tok => is_end_with tok (sp ++ "/" ++ e.path))
      && allFilesMatchList filters sp subs

def allFilesMatchList (filters : List String) (sp : String) : List DirNode → Bool
  | [] => true
  | d :: ds => d.allFilesMatch filters sp && allFilesMatchList filters sp ds

end

theorem included_files_match (filters : List String) (sp rel : String)
    (files : List String) :
    ((files.filter fun fn => filters.any fun f =>
        is_end_with f (sp ++ "/" ++ rel ++ "/" ++ fn)).map
      fun fn => FileEntry.mk fn (rel ++ "/" ++ fn) none none).all
      (fun e => filters.any fun tok => is_end_with tok (sp ++ "/" ++ e.path))
      = true := by
  simp only [List.all_eq_true, List.mem_map, List.mem_filter]
  rintro e ⟨fn, ⟨hmem, hmatch⟩, rfl⟩
  have hassoc : sp ++ "/" ++ (rel ++ "/" ++ fn) = sp ++ "/" ++ rel ++ "/" ++ fn := by
    simp [String.append_assoc]
  dsimp only
  rw [hassoc]
  exact hmatch

mutual

/-- Mutual-induction core of the C4 result, node form. -/
theorem load_directory_filters_go (filters : List String) (sp rel name : String)
    (t : FSTree) (node : DirNode)
    (h : load_directory filters sp rel name t = some node) :
    node.allFilesMatch filters sp = true ∧
    (filters.contains "folder" = true → node.noSubsAll = true) := by
  cases t with
  | node dirs files =>
    rw [load_directory.eq_def] at h
    dsimp only at h
    by_cases hf : filters.contains "folder"
    · rw [if_pos hf] at h
      cases dirs with
      | nil =>
        simp only [Option.some.injEq] at h
        subst h
        refine ⟨?_, fun _ => rfl⟩
        show (_ && _) = true
        rw [included_files_match filters sp rel files]
        rfl
      | cons hd tl => exact absurd h (by simp)
    · rw [if_neg hf] at h
      cases hforest : load_forest filters sp rel dirs with
      | none =>
        rw [hforest] at h
        exact absurd h (by simp)
      | some subs =>
        rw [hforest] at h
        simp only [Option.some.injEq] at h
        subst h
        have ih := load_forest_filters_go filters sp rel dirs subs hforest
        refine ⟨?_, fun hcontra => absurd hcontra hf⟩
        show (_ && _) = true
        rw [included_files_match filters sp rel files, ih]
        rfl

theorem load_forest_filters_go (filters : List String) (sp rel : String)
    (l : List (String × FSTree)) (ds : List DirNode)
    (h : load_forest filters sp rel l = some ds) :
    allFilesMatchList filters sp ds = true := by
  cases l with
  | nil =>
    rw [load_forest.eq_def] at h
    dsimp only at h
    simp only [Option.some.injEq] at h
    subst h
    rfl
  | cons p rest =>
    obtain ⟨dn, dt⟩ := p
    rw [load_forest.eq_def] at h
    dsimp only at h
    cases hd : load_directory filters sp (rel ++ "/" ++ dn) dn dt with
    | none =>
      rw [hd] at h
      exact absurd h (by simp)
    | some d =>
      cases hrest : load_forest filters sp rel rest with
      | none =>
        rw [hd, hrest] at h
        exact absurd h (by simp)
      | some ds' =>
        rw [hd, hrest] at h
        simp only [Option.some.injEq] at h
        subst h
        have ih1 := load_directory_filters_go filters sp (rel ++ "/" ++ dn) dn dt d hd
        have ih2 := load_forest_filters_go filters sp rel rest ds' hrest
        show (_ && _) = true
        rw [ih1.1, ih2]
        rfl

end

/-- C4 amended.  Every tree `load_directory` returns satisfies: each file
entry, at any depth, matches at least one filter token — with the extension
computed from the last `.`-delimited token of the file's full on-disk path,
which spans directory components whenever the basename holds no dot — and
if `folder` is among the filters then the tree has no subdirectories at any
depth (a walk that meets a subdirectory raises instead of returning). -/
theorem load_directory_filters (filters : List String) (sp rel name : String)
    (t : FSTree) (node : DirNode)
    (h : load_directory filters sp rel name t = some node) :
    node.allFilesMatch filters sp = true ∧
    (filters.contains "folder" = true → node.noSubsAll = true) :=
  load_directory_filters_go filters sp rel name t node h

/-- C4 counterexample.  With filter set `{"b/c"}` and a dot-free file `c`
inside directory `a.b`, the walk includes `c` (its full path's last
`.`-token is `b/c`), yet the file's **name** `c` matches no token of the
filter set — its basename has no extension at all — contradicting the
claim read with the spec's basename extension. -/
theorem list_filter_counterexample :
    load_directory ["b/c"] "/s" "storage" "storage"
        (FSTree.node [("a.b", FSTree.node [] ["c"])] [])
      = some (DirNode.mk "storage" "storage"
          [DirNode.mk "a.b" "storage/a.b" []
            [FileEntry.mk "c" "storage/a.b/c" none none]] []) ∧
    (["b/c"].any fun tok => is_end_with tok "c") = false ∧
    lastDotTok "c" = "c" :=
  ⟨rfl, by decide, by decide⟩

/-- Witness for C4 amended: listing a flat store with filters
`["folder", "txt"]` returns only the matching `a.txt` and no
subdirectories. -/
theorem load_directory_filters_witness :
    DirNode.allFilesMatch ["folder", "txt"] "/s"
        (DirNode.mk "storage" "storage" []
          [FileEntry.mk "a.txt" "storage/a.txt" none none]) = true ∧
    DirNode.noSubsAll
        (DirNode.mk "storage" "storage" []
          [FileEntry.mk "a.txt" "storage/a.txt" none none]) = true :=
  ⟨(load_directory_filters ["folder", "txt"] "/s" "storage" "storage"
      (FSTree.node [] ["a.txt", "b"]) _ rfl).1,
   (load_directory_filters ["folder", "txt"] "/s" "storage" "storage"
      (FSTree.node [] ["a.txt", "b"]) _ rfl).2 (by decide)⟩

/-! ## Claim C9: list-merge deduplication -/

/-- Dropping the coordinator annotations from one file entry. -/
def stripEntry (e : FileEntry) : FileEntry :=
  FileEntry.mk e.name e.path none none

/-- Dropping the coordinator annotations from a node's own files. -/
def stripAnnots : DirNode → DirNode
  | .mk n p subs files => .mk n p subs (files.map stripEntry)

theorem mergeFiles_append (src : List FileEntry) :
    ∀ (acc : List FileEntry) (seen : List String),
      ∃ l, mergeFiles acc seen src = acc ++ l := by
  induction src with
  | nil =>
    intro acc seen
    exact ⟨[], by simp [mergeFiles]⟩
  | cons f rest ih =>
    intro acc seen
    rw [mergeFiles]
    by_cases hc : seen.contains f.path
    · rw [if_pos hc]
      exact ih acc seen
    · rw [if_neg hc]
      obtain ⟨l, hl⟩ := ih (acc ++ [f]) (seen ++ [f.path])
      exact ⟨[f] ++ l, by rw [hl, List.append_assoc]⟩

theorem mergeFiles_nodup (src : List FileEntry) :
    ∀ (acc : List FileEntry) (seen : List String),
      seen = acc.map FileEntry.path →
      (acc.map FileEntry.path).Nodup →
      ((mergeFiles acc seen src).map FileEntry.path).Nodup := by
  induction src with
  | nil =>
    intro acc seen _ hnd
    simpa [mergeFiles] using hnd
  | cons f rest ih =>
    intro acc seen hseen hnd
    rw [mergeFiles]
    by_cases hc : seen.contains f.path
    · rw [if_pos hc]
      exact ih acc seen hseen hnd
    · rw [if_neg hc]
      subst hseen
      have hnotmem : f.path ∉ acc.map FileEntry.path := by
        intro hmem
        exact hc (List.elem_eq_true_of_mem hmem)
      apply ih (acc ++ [f]) (acc.map FileEntry.path ++ [f.path])
      · simp
      · simp [List.nodup_append, hnd, hnotmem]

theorem mergeFiles_paths_strip (src : List FileEntry) :
    ∀ (acc1 acc2 : List FileEntry) (seen : List String),
      acc1.map FileEntry.path = acc2.map FileEntry.path →
      (mergeFiles acc1 seen src).map FileEntry.path
        = (mergeFiles acc2 seen (src.map stripEntry)).map FileEntry.path := by
  induction src with
  | nil =>
    intro acc1 acc2 seen hacc
    simpa [mergeFiles] using hacc
  | cons f rest ih =>
    intro acc1 acc2 seen hacc
    rw [List.map_cons, mergeFiles, mergeFiles]
    dsimp only [stripEntry]
    by_cases hc : seen.contains f.path
    · rw [if_pos hc, if_pos hc]
      exact ih acc1 acc2 seen hacc
    · rw [if_neg hc, if_neg hc]
      apply ih
      simp [hacc, stripEntry]

theorem isPrefixOf_append_self (l t : List FileEntry) :
    l.isPrefixOf (l ++ t) = true :=
  List.isPrefixOf_iff_prefix.mpr (List.prefix_append l t)

/-- C9 counterexample.  Two backend payloads that both report a file at
`storage/x.mp4` at the root: `handle_list` appends both annotated entries
without any deduplication, so the merged response carries the same path
twice at the root node — the claimed global uniqueness is false. -/
theorem list_merge_counterexample :
    ((coord_handle_list "storage"
        [("image", "h1:9001", some (DirNode.mk "storage" "storage" []
            [FileEntry.mk "x.mp4" "storage/x.mp4" none none])),
         ("video", "h2:9002", some (DirNode.mk "storage" "storage" []
            [FileEntry.mk "x.mp4" "storage/x.mp4" none none]))]).files.map
        FileEntry.path)
      = ["storage/x.mp4", "storage/x.mp4"] ∧
    ¬ ((coord_handle_list "storage"
        [("image", "h1:9001", some (DirNode.mk "storage" "storage" []
            [FileEntry.mk "x.mp4" "storage/x.mp4" none none])),
         ("video", "h2:9002", some (DirNode.mk "storage" "storage" []
            [FileEntry.mk "x.mp4" "storage/x.mp4" none none]))]).files.map
        FileEntry.path).Nodup :=
  ⟨rfl, by decide⟩

/-- C9 amended.  Path-keyed, earliest-kept deduplication does hold — for
the files of a node produced by `merge_directory_nodes` (the routine
applied when subdirectories with equal paths are merged): if the target's
file paths are duplicate-free so are the merged node's, the target's files
are kept first and unchanged, and the annotations play no role in the
selection (stripping them from the source leaves the selected path list
unchanged).  Root-level files of `handle_list`, by contrast, are
concatenated without deduplication (see the counterexample). -/
theorem merge_dedups_by_path (t s : DirNode)
    (h : (t.files.map FileEntry.path).Nodup) :
    ((merge_directory_nodes t s).files.map FileEntry.path).Nodup ∧
    t.files.isPrefixOf (merge_directory_nodes t s).files = true ∧
    (merge_directory_nodes t s).files.map FileEntry.path
      = (merge_directory_nodes t (stripAnnots s)).files.map FileEntry.path := by
  obtain ⟨tn, tp, tsubs, tfiles⟩ := t
  obtain ⟨sn, sp2, ssubs, sfiles⟩ := s
  have hm : ∀ (n2 p2 : String) (sub2 : List DirNode) (f2 : List FileEntry),
      merge_directory_nodes (.mk tn tp tsubs tfiles) (.mk n2 p2 sub2 f2)
        = .mk tn tp (mergeSubs tsubs sub2)
            (mergeFiles tfiles (tfiles.map FileEntry.path) f2) := by
    intro n2 p2 sub2 f2
    rw [merge_directory_nodes]
  dsimp only [DirNode.files] at h ⊢
  rw [stripAnnots, hm, hm]
  dsimp only [DirNode.files]
  refine ⟨mergeFiles_nodup sfiles tfiles (tfiles.map FileEntry.path) rfl h, ?_, ?_⟩
  · obtain ⟨l, hl⟩ := mergeFiles_append sfiles tfiles (tfiles.map FileEntry.path)
    rw [hl]
    exact isPrefixOf_append_self tfiles l
  · exact mergeFiles_paths_strip sfiles tfiles tfiles (tfiles.map FileEntry.path) rfl

/-- Witness for C9 amended: merging a source that repeats `storage/d/a`
with a `video` annotation into a target that already holds it keeps one
copy, target first, annotations ignored. -/
theorem merge_dedups_by_path_witness :
    ((merge_directory_nodes
        (DirNode.mk "d" "storage/d" [] [FileEntry.mk "a" "storage/d/a" none none])
        (DirNode.mk "d" "storage/d" []
          [FileEntry.mk "a" "storage/d/a" (some "video") (some "h:1"),
           FileEntry.mk "b" "storage/d/b" none none])).files.map
      FileEntry.path).Nodup ∧
    ([FileEntry.mk "a" "storage/d/a" none none]).isPrefixOf
      (merge_directory_nodes
        (DirNode.mk "d" "storage/d" [] [FileEntry.mk "a" "storage/d/a" none none])
        (DirNode.mk "d" "storage/d" []
          [FileEntry.mk "a" "storage/d/a" (some "video") (some "h:1"),
           FileEntry.mk "b" "storage/d/b" none none])).files = true :=
  ⟨(merge_dedups_by_path
      (DirNode.mk "d" "storage/d" [] [FileEntry.mk "a" "storage/d/a" none none])
      (DirNode.mk "d" "storage/d" []
        [FileEntry.mk "a" "storage/d/a" (some "video") (some "h:1"),
         FileEntry.mk "b" "storage/d/b" none none]) (by decide)).1,
   (merge_dedups_by_path
      (DirNode.mk "d" "storage/d" [] [FileEntry.mk "a" "storage/d/a" none none])
      (DirNode.mk "d" "storage/d" []
        [FileEntry.mk "a" "storage/d/a" (some "video") (some "h:1"),
         FileEntry.mk "b" "storage/d/b" none none]) (by decide)).2.1⟩

end DFS
